import Mathlib

/-!
Shallow embedding of the plant growth simulation
(plant_sim.py, scalar_fields.py, plantsim_config.py).

Modelling conventions:
 - Python floats are modelled as real numbers; numpy arrays as lists.
 - The two ambient random generators (numpy's, which supplies the two
   per-cycle rand(n) arrays, and the python random module, which supplies
   bifurcation angle perturbations, flower colors and root angle draws)
   are modelled as explicit streams with cursors, threaded through the
   cycle loop in the exact order the source consumes draws.
 - random.choice over the color palette is modelled as selecting the
   index given by a natural-number stream reduced modulo the palette
   length; only which element is picked matters to the simulation state.
 - The numba prange loops of the scalar fields and of branch_growth are
   independent per-index maps, so they are embedded as per-point
   functions mapped over lists.
-/

namespace PlantSim

/-- Body of the prange loop of sunlight_field (scalar_fields.py, line 23):
sunlight intensity at a single vertical position. -/
noncomputable def sunlightAt (y HEIGHT : ℝ) : ℝ :=
  0.5 + 0.5 * Real.sin (Real.pi * y / HEIGHT)

/-- sunlight_field (scalar_fields.py, lines 14-24): batch version, one output
per input sample, index-aligned. -/
noncomputable def sunlight_field (y_arr : List ℝ) (HEIGHT : ℝ) : List ℝ :=
  y_arr.map fun y => sunlightAt y HEIGHT

/-- Body of the prange loop of temperature_field (scalar_fields.py, line 35). -/
noncomputable def temperatureAt (x WIDTH : ℝ) : ℝ :=
  20 + 10 * Real.cos (Real.pi * x / WIDTH)

/-- temperature_field (scalar_fields.py, lines 26-36): batch version. -/
noncomputable def temperature_field (x_arr : List ℝ) (WIDTH : ℝ) : List ℝ :=
  x_arr.map fun x => temperatureAt x WIDTH

/-- Body of the prange loop of moisture_field (scalar_fields.py, lines 46-49):
a 2D Gaussian centered in the environment, written with the source's
products dx*dx, dy*dy and 2*sigma*sigma. -/
noncomputable def moistureAt (x y WIDTH HEIGHT : ℝ) : ℝ :=
  let cx := WIDTH / 2
  let cy := HEIGHT / 2
  let sigma := WIDTH / 4
  let dx := x - cx
  let dy := y - cy
  0.5 + 0.5 * Real.exp (-(dx * dx + dy * dy) / (2 * sigma * sigma))

/-- moisture_field (scalar_fields.py, lines 38-50): batch version over
index-aligned coordinate lists. -/
noncomputable def moisture_field (x_arr y_arr : List ℝ) (WIDTH HEIGHT : ℝ) : List ℝ :=
  List.zipWith (fun x y => moistureAt x y WIDTH HEIGHT) x_arr y_arr

/-- A growing endpoint: position and heading angle (plant_sim.py, line 57). -/
structure Tip where
  pos : ℝ × ℝ
  angle : ℝ

instance : Inhabited Tip := ⟨⟨(0, 0), 0⟩⟩

/-- A grown piece of branch or root: the source stores these as (start, end)
pairs of positions (plant_sim.py, lines 91, 100, 118). -/
abbrev Segment : Type := (ℝ × ℝ) × (ℝ × ℝ)

/-- A leaf record (plant_sim.py, lines 92, 101). -/
structure Leaf where
  pos : ℝ × ℝ
  size : ℝ

instance : Inhabited Leaf := ⟨⟨(0, 0), 0⟩⟩

/-- A flower record (plant_sim.py, line 106). -/
structure Flower where
  pos : ℝ × ℝ
  size : ℝ
  color : String

/-- The parameter record (plantsim_config.py DEFAULT_PARAMS keys). -/
structure Params where
  WIDTH : ℝ
  HEIGHT : ℝ
  SOIL_DEPTH : ℝ
  CYCLES : ℕ
  BASE_BRANCH_LEN : ℝ
  BRANCH_ANGLE_RANGE : ℝ
  BRANCH_PROB : ℝ
  LEAF_BASE_SIZE : ℝ
  BASE_ROOT_LEN : ℝ
  ROOT_ANGLE_RANGE : ℝ
  FLOWER_CYCLE_START : ℕ
  FLOWER_BASE_SIZE : ℝ
  FLOWER_COLORS : List String

/-- Result of advancing one branch tip: the i-th entries of the four arrays
returned by branch_growth (plant_sim.py, lines 42-45). -/
structure TipGrowth where
  nx : ℝ
  ny : ℝ
  nang : ℝ
  gf : ℝ

instance : Inhabited TipGrowth := ⟨⟨0, 0, 0, 0⟩⟩

/-- Body of the prange loop of branch_growth (plant_sim.py, lines 37-44) for
one tip: growth factor from the three fields sampled at the tip's current
(pre-update) position, then the perturbed angle and the new position. -/
noncomputable def tipGrowth (BASE_BRANCH_LEN BRANCH_ANGLE_RANGE WIDTH HEIGHT : ℝ)
    (t : Tip) (rand_off_i : ℝ) : TipGrowth :=
  let sun := sunlightAt t.pos.2 HEIGHT
  let temp := temperatureAt t.pos.1 WIDTH
  let water := moistureAt t.pos.1 t.pos.2 WIDTH HEIGHT
  let gf := sun * water * (1 - |temp - 25| / 50)
  let length := BASE_BRANCH_LEN * gf
  let theta := t.angle + (rand_off_i * 2 - 1) * BRANCH_ANGLE_RANGE
  ⟨t.pos.1 + length * Real.cos theta, t.pos.2 + length * Real.sin theta, theta, gf⟩

/-- branch_growth (plant_sim.py, lines 10-45): batch advance of all current
branch tips.  The source computes the field arrays in batch and then runs an
independent per-index loop, which is equivalent to this per-tip map.  The
rand_br array is accepted and ignored exactly as in the source (it is only
consumed later, by the bifurcation test inside Plant.grow). -/
noncomputable def branch_growth (x_arr y_arr angle_arr rand_off rand_br : List ℝ)
    (BASE_BRANCH_LEN BRANCH_ANGLE_RANGE WIDTH HEIGHT : ℝ) : List TipGrowth :=
  ((x_arr.zip y_arr).zip (angle_arr.zip rand_off)).map fun q =>
    tipGrowth BASE_BRANCH_LEN BRANCH_ANGLE_RANGE WIDTH HEIGHT ⟨q.1, q.2.1⟩ q.2.2

/-- The mutable simulation state (plant_sim.py, lines 55-62). -/
structure Plant where
  branch_tips : List Tip
  branches : List Segment
  leaves : List Leaf
  root_tips : List Tip
  roots : List Segment
  flowers : List Flower

/-- The fresh plant built by Plant.__init__ (plant_sim.py, lines 55-62). -/
noncomputable def initPlant (x0 y0 : ℝ) : Plant :=
  { branch_tips := [⟨(x0, y0), Real.pi / 2⟩]
    branches := []
    leaves := []
    root_tips := [⟨(x0, y0), -(Real.pi / 2)⟩]
    roots := []
    flowers := [] }

/-- The ambient random sources: npStream models the numpy generator (consumed
two blocks of n draws per cycle, lines 76), pyStream models the python random
module's uniform draws (bifurcation angles line 95, root angles line 116), and
chStream models the index selection of random.choice (line 105). -/
structure RNGState where
  npStream : ℕ → ℝ
  pyStream : ℕ → ℝ
  chStream : ℕ → ℕ
  npIdx : ℕ
  pyIdx : ℕ
  chIdx : ℕ

/-- The n angle-perturbation draws ro = np.random.rand(n) of one cycle
(plant_sim.py, line 76): the next n values of the numpy stream. -/
noncomputable def roDraws (st : Plant) (rng : RNGState) : List ℝ :=
  (List.range st.branch_tips.length).map fun i => rng.npStream (rng.npIdx + i)

/-- The n bifurcation draws rb = np.random.rand(n) of one cycle
(plant_sim.py, line 76): the n values of the numpy stream after roDraws. -/
noncomputable def rbDraws (st : Plant) (rng : RNGState) : List ℝ :=
  (List.range st.branch_tips.length).map fun i =>
    rng.npStream (rng.npIdx + st.branch_tips.length + i)

/-- What the per-tip loop of one cycle accumulates (plant_sim.py, lines 84-102):
the appended branch segments and leaves, the next-generation tip list, plus the
python-stream cursor after the bifurcation draws consumed inside the loop. -/
structure BranchOut where
  segs : List Segment
  lvs : List Leaf
  tips : List Tip
  pyIdx : ℕ

/-- The per-tip loop of the above-ground phase (plant_sim.py, lines 85-102),
processing one (tip, rand_off_i, rand_br_i) triple per iteration.  The growth
rule value for a tip is its entry of the branch_growth batch (recomputed here
per tip, which agrees index-wise with the batch: see branch_growth_getD).
The endpoint y is clamped to 0 (lines 89-90, 98-99); a bifurcation consumes
one fresh python draw for its angle (line 95) and reuses the same rand_br_i
that was passed to branch_growth for its test (line 94). -/
noncomputable def branchLoop (p : Params) (pyS : ℕ → ℝ) :
    List (Tip × ℝ × ℝ) → ℕ → BranchOut
  | [], j => ⟨[], [], [], j⟩
  | (t, roi, rbi) :: rest, j =>
    let g := tipGrowth p.BASE_BRANCH_LEN p.BRANCH_ANGLE_RANGE p.WIDTH p.HEIGHT t roi
    let s := t.pos
    let e : ℝ × ℝ := if g.ny < 0 then (g.nx, 0) else (g.nx, g.ny)
    if rbi < p.BRANCH_PROB * g.gf then
      let u := pyS j
      let th2 := t.angle + (u * 2 - 1) * p.BRANCH_ANGLE_RANGE
      let raw2 : ℝ × ℝ := (s.1 + p.BASE_BRANCH_LEN * g.gf * Real.cos th2,
                           s.2 + p.BASE_BRANCH_LEN * g.gf * Real.sin th2)
      let e2 : ℝ × ℝ := if raw2.2 < 0 then (raw2.1, 0) else raw2
      let o := branchLoop p pyS rest (j + 1)
      ⟨(s, e) :: (s, e2) :: o.segs,
       ⟨e, p.LEAF_BASE_SIZE * g.gf⟩ :: ⟨e2, p.LEAF_BASE_SIZE * g.gf⟩ :: o.lvs,
       ⟨e, g.nang⟩ :: ⟨e2, th2⟩ :: o.tips,
       o.pyIdx⟩
    else
      let o := branchLoop p pyS rest j
      ⟨(s, e) :: o.segs,
       ⟨e, p.LEAF_BASE_SIZE * g.gf⟩ :: o.lvs,
       ⟨e, g.nang⟩ :: o.tips,
       o.pyIdx⟩

/-- The whole above-ground batch of one cycle: the loop applied to the current
tips zipped with the two numpy draw arrays (plant_sim.py, lines 73-102). -/
noncomputable def branchData (p : Params) (st : Plant) (rng : RNGState) : BranchOut :=
  branchLoop p rng.pyStream
    (st.branch_tips.zip ((roDraws st rng).zip (rbDraws st rng))) rng.pyIdx

/-- The next-generation branch tip set produced by one cycle: empty when the
above-ground phase is skipped (plant_sim.py, line 72), else the loop's tips. -/
noncomputable def newBranchTips (p : Params) (st : Plant) (rng : RNGState) : List Tip :=
  if st.branch_tips.length = 0 then [] else (branchData p st rng).tips

/-- Output of the flower loop: the appended flowers and the choice cursor. -/
structure FlowerOut where
  fls : List Flower
  chIdx : ℕ

/-- The flower loop (plant_sim.py, lines 104-106): one flower per
next-generation tip, at the tip's position, of base size, with a color picked
from the palette by one choice draw. -/
noncomputable def flowerLoop (p : Params) (chS : ℕ → ℕ) : List Tip → ℕ → FlowerOut
  | [], k => ⟨[], k⟩
  | t :: rest, k =>
    let color := p.FLOWER_COLORS.getD (chS k % p.FLOWER_COLORS.length) "red"
    let o := flowerLoop p chS rest (k + 1)
    ⟨⟨t.pos, p.FLOWER_BASE_SIZE, color⟩ :: o.fls, o.chIdx⟩

/-- Output of the root loop: appended root segments, next root tips, cursor. -/
structure RootOut where
  segs : List Segment
  tips : List Tip
  pyIdx : ℕ

/-- The below-ground loop (plant_sim.py, lines 108-119): each root tip samples
moisture at its own position (a singleton moisture_field batch, see
moisture_field_singleton), advances by BASE_ROOT_LEN * moisture along an angle
perturbed by uniform(-ROOT_ANGLE_RANGE, ROOT_ANGLE_RANGE), with no clamp on
the endpoint. -/
noncomputable def rootLoop (p : Params) (pyS : ℕ → ℝ) : List Tip → ℕ → RootOut
  | [], j => ⟨[], [], j⟩
  | rt :: rest, j =>
    let w := moistureAt rt.pos.1 rt.pos.2 p.WIDTH p.HEIGHT
    let len := p.BASE_ROOT_LEN * w
    let th := rt.angle +
      (-p.ROOT_ANGLE_RANGE + (p.ROOT_ANGLE_RANGE - -p.ROOT_ANGLE_RANGE) * pyS j)
    let e : ℝ × ℝ := (rt.pos.1 + len * Real.cos th, rt.pos.2 + len * Real.sin th)
    let o := rootLoop p pyS rest (j + 1)
    ⟨(rt.pos, e) :: o.segs, ⟨e, th⟩ :: o.tips, o.pyIdx⟩

/-- One iteration of the cycle loop of Plant.grow (plant_sim.py, lines 68-120):
the above-ground phase (skipped when there are no branch tips), the flower
block guarded by the cycle index, the tip replacement with its empty-list
fallback, then the below-ground phase with the same fallback. -/
noncomputable def growCycle (p : Params) (cycle : ℕ) (s : Plant × RNGState) :
    Plant × RNGState :=
  let st := s.1
  let rng := s.2
  let sr1 : Plant × RNGState :=
    if st.branch_tips.length = 0 then (st, rng)
    else
      let o := branchData p st rng
      let fo : FlowerOut :=
        if p.FLOWER_CYCLE_START ≤ cycle then flowerLoop p rng.chStream o.tips rng.chIdx
        else ⟨[], rng.chIdx⟩
      ({ st with
          branches := st.branches ++ o.segs
          leaves := st.leaves ++ o.lvs
          flowers := st.flowers ++ fo.fls
          branch_tips := if o.tips.isEmpty then st.branch_tips else o.tips },
       { rng with
          npIdx := rng.npIdx + 2 * st.branch_tips.length
          pyIdx := o.pyIdx
          chIdx := fo.chIdx })
  let st1 := sr1.1
  let rng1 := sr1.2
  let rt := rootLoop p rng1.pyStream st1.root_tips rng1.pyIdx
  ({ st1 with
      roots := st1.roots ++ rt.segs
      root_tips := if rt.tips.isEmpty then st1.root_tips else rt.tips },
   { rng1 with pyIdx := rt.pyIdx })

/-- Plant.grow (plant_sim.py, lines 64-125): run the cycle body for cycle
indices 1, 2, ..., cycles. -/
noncomputable def grow (p : Params) (cycles : ℕ) (s : Plant × RNGState) :
    Plant × RNGState :=
  (List.range cycles).foldl (fun acc c => growCycle p (c + 1) acc) s

/-- A sequence of grow calls on the same plant (each call restarts its cycle
numbering at 1, as the source's range(1, cycles+1) does). -/
noncomputable def growSeq (p : Params) (ks : List ℕ) (s : Plant × RNGState) :
    Plant × RNGState :=
  ks.foldl (fun acc k => grow p k acc) s

/-- A plant state with no tips and no geometry, for exercising the stall
policy on empty tip sets. -/
def emptyPlant : Plant := ⟨[], [], [], [], [], []⟩

/-- Concrete parameter record for the spec's concrete test scenario
(WIDTH=100, HEIGHT=100, SOIL_DEPTH=20, CYCLES=1, BASE_BRANCH_LEN=1,
BRANCH_ANGLE_RANGE=0, BRANCH_PROB=0), with a configurable LEAF_BASE_SIZE and
the default root, flower and palette settings of plantsim_config.py. -/
noncomputable def pScen (L : ℝ) : Params :=
  { WIDTH := 100
    HEIGHT := 100
    SOIL_DEPTH := 20
    CYCLES := 1
    BASE_BRANCH_LEN := 1
    BRANCH_ANGLE_RANGE := 0
    BRANCH_PROB := 0
    LEAF_BASE_SIZE := L
    BASE_ROOT_LEN := 0.5
    ROOT_ANGLE_RANGE := 0
    FLOWER_CYCLE_START := 40
    FLOWER_BASE_SIZE := 5
    FLOWER_COLORS := ["red", "pink", "orange"] }

/-- A concrete random source whose uniform draws are all 1/2. -/
noncomputable def rngHalf : RNGState :=
  ⟨fun _ => 1 / 2, fun _ => 1 / 2, fun _ => 0, 0, 0, 0⟩

/-- The exact growth factor at position (50, 0) in a 100 x 100 domain:
sunlight(0) * moisture(50,0) * (1 - |temperature(50) - 25| / 50)
  = (1/2) * (1/2 + exp(-2)/2) * (9/10). -/
noncomputable def gfval : ℝ := 9 / 40 * (1 + Real.exp (-2))

/-- The exact moisture at position (50, 0) in a 100 x 100 domain. -/
noncomputable def mval : ℝ := 1 / 2 + Real.exp (-2) / 2

/-- A singleton moisture_field batch evaluates the per-point Gaussian, as the
root phase's single-tip call does (plant_sim.py, lines 111-114). -/
theorem moisture_field_singleton (x y WIDTH HEIGHT : ℝ) :
    moisture_field [x] [y] WIDTH HEIGHT = [moistureAt x y WIDTH HEIGHT] := rfl

/-- Sunlight values are never negative: the sine term is at least -1. -/
theorem sunlightAt_nonneg (y HEIGHT : ℝ) : 0 ≤ sunlightAt y HEIGHT := by
  have h := Real.neg_one_le_sin (Real.pi * y / HEIGHT)
  simp only [sunlightAt]
  nlinarith

/-- Moisture values are strictly positive (in fact above 1/2). -/
theorem moistureAt_gt_half (x y WIDTH HEIGHT : ℝ) : 1 / 2 < moistureAt x y WIDTH HEIGHT := by
  have h := Real.exp_pos
    (-((x - WIDTH / 2) * (x - WIDTH / 2) + (y - HEIGHT / 2) * (y - HEIGHT / 2)) /
      (2 * (WIDTH / 4) * (WIDTH / 4)))
  simp only [moistureAt]
  nlinarith

theorem moistureAt_pos (x y WIDTH HEIGHT : ℝ) : 0 < moistureAt x y WIDTH HEIGHT :=
  lt_trans (by norm_num) (moistureAt_gt_half x y WIDTH HEIGHT)

/-- For a nonzero width the Gaussian exponent is nonpositive, so moisture is
at most 1. -/
theorem moistureAt_le_one (x y WIDTH HEIGHT : ℝ) (hW : WIDTH ≠ 0) :
    moistureAt x y WIDTH HEIGHT ≤ 1 := by
  simp only [moistureAt]
  have hden : 0 < 2 * (WIDTH / 4) * (WIDTH / 4) := by
    rcases lt_or_gt_of_ne hW with h | h <;> nlinarith
  have hnum : 0 ≤ (x - WIDTH / 2) * (x - WIDTH / 2) + (y - HEIGHT / 2) * (y - HEIGHT / 2) := by
    nlinarith
  have hz : (-((x - WIDTH / 2) * (x - WIDTH / 2) + (y - HEIGHT / 2) * (y - HEIGHT / 2)) /
      (2 * (WIDTH / 4) * (WIDTH / 4))) ≤ 0 := by
    apply div_nonpos_of_nonpos_of_nonneg <;> linarith
  have := Real.exp_le_one_iff.mpr hz
  linarith

/-- The temperature factor 1 - |temp - 25| / 50 is never negative: the cosine
profile keeps temperature within [10, 30], so the deviation is at most 15. -/
theorem tempFactor_nonneg (x WIDTH : ℝ) : 0 ≤ 1 - |temperatureAt x WIDTH - 25| / 50 := by
  have h1 := Real.neg_one_le_cos (Real.pi * x / WIDTH)
  have h2 := Real.cos_le_one (Real.pi * x / WIDTH)
  have habs : |temperatureAt x WIDTH - 25| ≤ 15 := by
    simp only [temperatureAt]
    rw [abs_le]
    constructor <;> nlinarith
  have hnn := abs_nonneg (temperatureAt x WIDTH - 25)
  linarith

/-- The growth factor computed by the growth rule is never negative. -/
theorem tipGrowth_gf_nonneg (BL BAR W H : ℝ) (t : Tip) (roi : ℝ) :
    0 ≤ (tipGrowth BL BAR W H t roi).gf := by
  simp only [tipGrowth]
  exact mul_nonneg
    (mul_nonneg (sunlightAt_nonneg _ _) (moistureAt_pos _ _ _ _).le)
    (tempFactor_nonneg _ _)

/-- Sunlight at ground level of the 100-high domain is exactly 1/2. -/
theorem sunlightAt_scen : sunlightAt 0 100 = 1 / 2 := by
  simp [sunlightAt]
  norm_num

/-- Temperature at the horizontal center of the 100-wide domain is exactly 20. -/
theorem temperatureAt_scen : temperatureAt 50 100 = 20 := by
  have h : Real.pi * 50 / 100 = Real.pi / 2 := by ring
  rw [temperatureAt, h, Real.cos_pi_div_two]
  norm_num

/-- Moisture at (50, 0) in the 100 x 100 domain is exactly 1/2 + exp(-2)/2. -/
theorem moistureAt_scen : moistureAt 50 0 100 100 = mval := by
  have h : (-(((50:ℝ) - 100 / 2) * ((50:ℝ) - 100 / 2) +
      ((0:ℝ) - 100 / 2) * ((0:ℝ) - 100 / 2)) / (2 * ((100:ℝ) / 4) * ((100:ℝ) / 4))) = -2 := by
    norm_num
  simp only [moistureAt]
  rw [h, mval]
  ring

theorem mval_pos : 0 < mval := by
  have := Real.exp_pos (-2 : ℝ)
  rw [mval]; linarith

theorem gfval_pos : 0 < gfval := by
  have := Real.exp_pos (-2 : ℝ)
  rw [gfval]; nlinarith

/-- The growth rule at the scenario tip (50, 0) with heading pi/2, unit base
length and zero angle range: the tip moves straight up by the growth factor,
whatever the perturbation draw was. -/
theorem tipGrowth_scen (r : ℝ) :
    tipGrowth 1 0 100 100 ⟨(50, 0), Real.pi / 2⟩ r =
      ⟨50, gfval, Real.pi / 2, gfval⟩ := by
  have hgf : sunlightAt 0 100 * moistureAt 50 0 100 100 *
      (1 - |temperatureAt 50 100 - 25| / 50) = gfval := by
    rw [sunlightAt_scen, temperatureAt_scen, moistureAt_scen, mval, gfval]
    rw [show |(20:ℝ) - 25| = 5 by rw [abs_of_nonpos] <;> norm_num]
    ring
  simp only [tipGrowth]
  rw [show Real.pi / 2 + (r * 2 - 1) * 0 = Real.pi / 2 by ring]
  rw [Real.cos_pi_div_two, Real.sin_pi_div_two]
  simp only [hgf]
  congr 1 <;> ring

/-- The ground clamp (plant_sim.py, lines 88-90): the kept endpoint's second
coordinate is never negative. -/
theorem clampY_nonneg (a b : ℝ) : 0 ≤ (if b < 0 then (a, (0:ℝ)) else (a, b)).2 := by
  split
  · norm_num
  · next h => exact not_lt.mp h

/-- Every branch segment appended by the per-tip loop has a clamped
endpoint: end.y is nonnegative. -/
theorem branchLoop_segs_endY_nonneg (p : Params) (pyS : ℕ → ℝ)
    (l : List (Tip × ℝ × ℝ)) (j : ℕ) :
    ∀ sg ∈ (branchLoop p pyS l j).segs, 0 ≤ sg.2.2 := by
  induction l generalizing j with
  | nil => simp [branchLoop]
  | cons x rest ih =>
    obtain ⟨t, roi, rbi⟩ := x
    intro sg hsg
    by_cases hb : rbi < p.BRANCH_PROB *
        (tipGrowth p.BASE_BRANCH_LEN p.BRANCH_ANGLE_RANGE p.WIDTH p.HEIGHT t roi).gf
    · simp only [branchLoop, if_pos hb, List.mem_cons] at hsg
      rcases hsg with h | h | h
      · subst h
        exact clampY_nonneg _ _
      · subst h
        exact clampY_nonneg _ _
      · exact ih _ sg h
    · simp only [branchLoop, if_neg hb, List.mem_cons] at hsg
      rcases hsg with h | h
      · subst h
        exact clampY_nonneg _ _
      · exact ih _ sg h

/-- The pairing of a leaf with the branch segment appended alongside it:
the leaf sits at the segment's (clamped) endpoint, and its size is
LEAF_BASE_SIZE times the growth factor of the tip the segment grew from. -/
abbrev LeafSegRel (p : Params) (lf : Leaf) (sg : Segment) : Prop :=
  lf.pos = sg.2 ∧ ∃ t roi, sg.1 = t.pos ∧
    lf.size = p.LEAF_BASE_SIZE *
      (tipGrowth p.BASE_BRANCH_LEN p.BRANCH_ANGLE_RANGE p.WIDTH p.HEIGHT t roi).gf

/-- Leaves and branch segments are appended in lockstep: the loop's leaf list
is index-aligned with its segment list, related pointwise by LeafSegRel. -/
theorem branchLoop_align (p : Params) (pyS : ℕ → ℝ)
    (l : List (Tip × ℝ × ℝ)) (j : ℕ) :
    List.Forall₂ (LeafSegRel p) (branchLoop p pyS l j).lvs (branchLoop p pyS l j).segs := by
  induction l generalizing j with
  | nil => simp [branchLoop]
  | cons x rest ih =>
    obtain ⟨t, roi, rbi⟩ := x
    by_cases hb : rbi < p.BRANCH_PROB *
        (tipGrowth p.BASE_BRANCH_LEN p.BRANCH_ANGLE_RANGE p.WIDTH p.HEIGHT t roi).gf
    · simp only [branchLoop, if_pos hb]
      exact List.Forall₂.cons ⟨rfl, t, roi, rfl, rfl⟩
        (List.Forall₂.cons ⟨rfl, t, roi, rfl, rfl⟩ (ih _))
    · simp only [branchLoop, if_neg hb]
      exact List.Forall₂.cons ⟨rfl, t, roi, rfl, rfl⟩ (ih _)

/-- With a nonnegative LEAF_BASE_SIZE every appended leaf has nonnegative
size, because the growth factor is never negative. -/
theorem branchLoop_lvs_size_nonneg (p : Params) (pyS : ℕ → ℝ)
    (hL : 0 ≤ p.LEAF_BASE_SIZE) (l : List (Tip × ℝ × ℝ)) (j : ℕ) :
    ∀ lf ∈ (branchLoop p pyS l j).lvs, 0 ≤ lf.size := by
  induction l generalizing j with
  | nil => simp [branchLoop]
  | cons x rest ih =>
    obtain ⟨t, roi, rbi⟩ := x
    intro lf hlf
    by_cases hb : rbi < p.BRANCH_PROB *
        (tipGrowth p.BASE_BRANCH_LEN p.BRANCH_ANGLE_RANGE p.WIDTH p.HEIGHT t roi).gf
    · simp only [branchLoop, if_pos hb, List.mem_cons] at hlf
      rcases hlf with h | h | h
      · subst h; exact mul_nonneg hL (tipGrowth_gf_nonneg _ _ _ _ _ _)
      · subst h; exact mul_nonneg hL (tipGrowth_gf_nonneg _ _ _ _ _ _)
      · exact ih _ lf h
    · simp only [branchLoop, if_neg hb, List.mem_cons] at hlf
      rcases hlf with h | h
      · subst h; exact mul_nonneg hL (tipGrowth_gf_nonneg _ _ _ _ _ _)
      · exact ih _ lf h

/-- With BRANCH_PROB = 0 and nonnegative bifurcation draws, no bifurcation
fires: the loop emits exactly one next tip per input tip. -/
theorem branchLoop_tips_len_of_BP0 (p : Params) (pyS : ℕ → ℝ)
    (hBP : p.BRANCH_PROB = 0) (l : List (Tip × ℝ × ℝ))
    (hnn : ∀ x ∈ l, 0 ≤ x.2.2) (j : ℕ) :
    (branchLoop p pyS l j).tips.length = l.length := by
  induction l generalizing j with
  | nil => simp [branchLoop]
  | cons x rest ih =>
    obtain ⟨t, roi, rbi⟩ := x
    have hr : (0:ℝ) ≤ rbi := hnn _ (List.mem_cons_self _ _)
    have hb : ¬ rbi < p.BRANCH_PROB *
        (tipGrowth p.BASE_BRANCH_LEN p.BRANCH_ANGLE_RANGE p.WIDTH p.HEIGHT t roi).gf := by
      rw [hBP, zero_mul]
      exact not_lt.mpr hr
    simp only [branchLoop, if_neg hb, List.length_cons]
    rw [ih (fun x hx => hnn x (List.mem_cons_of_mem _ hx)) _]

/-- The flower loop emits one flower per next-generation tip, in order,
at the tip's position, of base size, with a palette color (given a non-empty
palette, as the configuration contract requires). -/
theorem flowerLoop_spec (p : Params) (chS : ℕ → ℕ) (hc : p.FLOWER_COLORS ≠ [])
    (l : List Tip) (k : ℕ) :
    List.Forall₂ (fun (f : Flower) (t : Tip) =>
        f.pos = t.pos ∧ f.size = p.FLOWER_BASE_SIZE ∧ f.color ∈ p.FLOWER_COLORS)
      (flowerLoop p chS l k).fls l := by
  induction l generalizing k with
  | nil => simp [flowerLoop]
  | cons t rest ih =>
    simp only [flowerLoop]
    refine List.Forall₂.cons ⟨rfl, rfl, ?_⟩ (ih _)
    have hlen : 0 < p.FLOWER_COLORS.length := List.length_pos.mpr hc
    have hidx : chS k % p.FLOWER_COLORS.length < p.FLOWER_COLORS.length :=
      Nat.mod_lt _ hlen
    rw [List.getD_eq_getElem _ _ hidx]
    exact List.getElem_mem hidx

/-- The flower loop emits exactly one flower per tip. -/
theorem flowerLoop_length (p : Params) (chS : ℕ → ℕ) (l : List Tip) (k : ℕ) :
    (flowerLoop p chS l k).fls.length = l.length := by
  induction l generalizing k with
  | nil => simp [flowerLoop]
  | cons t rest ih => simp only [flowerLoop, List.length_cons, ih]

/-- Branch segments of one cycle: the previous list with the loop's segments
appended (nothing when the above-ground phase is skipped). -/
theorem growCycle_branches (p : Params) (c : ℕ) (s : Plant × RNGState) :
    (growCycle p c s).1.branches =
      s.1.branches ++
        (if s.1.branch_tips.length = 0 then [] else (branchData p s.1 s.2).segs) := by
  by_cases h : s.1.branch_tips.length = 0 <;> simp [growCycle, h]

/-- Leaves of one cycle: the previous list with the loop's leaves appended. -/
theorem growCycle_leaves (p : Params) (c : ℕ) (s : Plant × RNGState) :
    (growCycle p c s).1.leaves =
      s.1.leaves ++
        (if s.1.branch_tips.length = 0 then [] else (branchData p s.1 s.2).lvs) := by
  by_cases h : s.1.branch_tips.length = 0 <;> simp [growCycle, h]

/-- Flowers of one cycle: appended only when the above-ground phase runs and
the cycle index has reached FLOWER_CYCLE_START. -/
theorem growCycle_flowers (p : Params) (c : ℕ) (s : Plant × RNGState) :
    (growCycle p c s).1.flowers =
      s.1.flowers ++
        (if s.1.branch_tips.length = 0 then []
         else if p.FLOWER_CYCLE_START ≤ c then
           (flowerLoop p s.2.chStream (branchData p s.1 s.2).tips s.2.chIdx).fls
         else []) := by
  by_cases h : s.1.branch_tips.length = 0
  · simp [growCycle, h]
  · by_cases hc : p.FLOWER_CYCLE_START ≤ c <;> simp [growCycle, h, hc]

/-- Roots of one cycle: the previous list with the root loop's segments
appended; the loop starts at the python cursor left by the branch phase. -/
theorem growCycle_roots (p : Params) (c : ℕ) (s : Plant × RNGState) :
    (growCycle p c s).1.roots =
      s.1.roots ++
        (rootLoop p s.2.pyStream s.1.root_tips
          (if s.1.branch_tips.length = 0 then s.2.pyIdx
           else (branchData p s.1 s.2).pyIdx)).segs := by
  by_cases h : s.1.branch_tips.length = 0 <;> simp [growCycle, h]

/-- Branch tips after one cycle: replaced by the loop's next generation,
falling back to the previous tips when that generation is empty. -/
theorem growCycle_branch_tips (p : Params) (c : ℕ) (s : Plant × RNGState) :
    (growCycle p c s).1.branch_tips =
      if s.1.branch_tips.length = 0 then s.1.branch_tips
      else if (branchData p s.1 s.2).tips.isEmpty then s.1.branch_tips
      else (branchData p s.1 s.2).tips := by
  by_cases h : s.1.branch_tips.length = 0 <;> simp [growCycle, h]

/-- With no root tips the below-ground loop produces nothing and the fallback
retains the (empty) previous root tip list unchanged. -/
theorem growCycle_root_tips_of_empty (p : Params) (c : ℕ) (s : Plant × RNGState)
    (hroot : s.1.root_tips = []) :
    (growCycle p c s).1.root_tips = s.1.root_tips := by
  by_cases h : s.1.branch_tips.length = 0 <;>
    simp [growCycle, h, hroot, rootLoop]

/-- A cycle only advances the random cursors; the streams are unchanged. -/
theorem growCycle_streams (p : Params) (c : ℕ) (s : Plant × RNGState) :
    (growCycle p c s).2.npStream = s.2.npStream ∧
    (growCycle p c s).2.pyStream = s.2.pyStream ∧
    (growCycle p c s).2.chStream = s.2.chStream := by
  by_cases h : s.1.branch_tips.length = 0 <;> simp [growCycle, h]

theorem grow_zero (p : Params) (s : Plant × RNGState) : grow p 0 s = s := by
  simp [grow]

theorem grow_succ (p : Params) (k : ℕ) (s : Plant × RNGState) :
    grow p (k + 1) s = growCycle p (k + 1) (grow p k s) := by
  simp [grow, List.range_succ]

theorem grow_npStream (p : Params) (k : ℕ) (s : Plant × RNGState) :
    (grow p k s).2.npStream = s.2.npStream := by
  induction k with
  | zero => rw [grow_zero]
  | succ k ih => rw [grow_succ, (growCycle_streams p (k + 1) (grow p k s)).1, ih]

/-- grow never removes geometry: every collection after a grow call is the
collection before it with a suffix appended. -/
theorem grow_appends (p : Params) (k : ℕ) (s : Plant × RNGState) :
    ∃ db dl df dr,
      (grow p k s).1.branches = s.1.branches ++ db ∧
      (grow p k s).1.leaves = s.1.leaves ++ dl ∧
      (grow p k s).1.flowers = s.1.flowers ++ df ∧
      (grow p k s).1.roots = s.1.roots ++ dr := by
  induction k with
  | zero =>
    exact ⟨[], [], [], [], by simp [grow_zero], by simp [grow_zero],
      by simp [grow_zero], by simp [grow_zero]⟩
  | succ k ih =>
    obtain ⟨db, dl, df, dr, hb, hl, hf, hr⟩ := ih
    rw [grow_succ]
    set s1 := grow p k s with hs1
    refine ⟨db ++ (if s1.1.branch_tips.length = 0 then [] else (branchData p s1.1 s1.2).segs),
            dl ++ (if s1.1.branch_tips.length = 0 then [] else (branchData p s1.1 s1.2).lvs),
            df ++ (if s1.1.branch_tips.length = 0 then []
                   else if p.FLOWER_CYCLE_START ≤ k + 1 then
                     (flowerLoop p s1.2.chStream (branchData p s1.1 s1.2).tips s1.2.chIdx).fls
                   else []),
            dr ++ (rootLoop p s1.2.pyStream s1.1.root_tips
                   (if s1.1.branch_tips.length = 0 then s1.2.pyIdx
                    else (branchData p s1.1 s1.2).pyIdx)).segs, ?_, ?_, ?_, ?_⟩
    · rw [growCycle_branches, hb, List.append_assoc]
    · rw [growCycle_leaves, hl, List.append_assoc]
    · rw [growCycle_flowers, hf, List.append_assoc]
    · rw [growCycle_roots, hr, List.append_assoc]

/-- The ground-clamp invariant is preserved through any number of cycles. -/
theorem grow_branches_endY_nonneg (p : Params) (k : ℕ) (s : Plant × RNGState)
    (h : ∀ sg ∈ s.1.branches, 0 ≤ sg.2.2) :
    ∀ sg ∈ (grow p k s).1.branches, 0 ≤ sg.2.2 := by
  induction k with
  | zero => simpa [grow_zero] using h
  | succ k ih =>
    rw [grow_succ]
    intro sg hsg
    rw [growCycle_branches] at hsg
    rcases List.mem_append.mp hsg with h1 | h1
    · exact ih _ h1
    · split at h1
      · exact absurd h1 (List.not_mem_nil _)
      · exact branchLoop_segs_endY_nonneg _ _ _ _ _ h1

/-- The nonnegative-leaf-size invariant is preserved through any number of
cycles, provided LEAF_BASE_SIZE is nonnegative. -/
theorem grow_leaves_size_nonneg (p : Params) (k : ℕ) (s : Plant × RNGState)
    (hL : 0 ≤ p.LEAF_BASE_SIZE) (h : ∀ lf ∈ s.1.leaves, 0 ≤ lf.size) :
    ∀ lf ∈ (grow p k s).1.leaves, 0 ≤ lf.size := by
  induction k with
  | zero => simpa [grow_zero] using h
  | succ k ih =>
    rw [grow_succ]
    intro lf hlf
    rw [growCycle_leaves] at hlf
    rcases List.mem_append.mp hlf with h1 | h1
    · exact ih _ h1
    · split at h1
      · exact absurd h1 (List.not_mem_nil _)
      · exact branchLoop_lvs_size_nonneg _ _ hL _ _ _ h1

/-- The leaf-segment pairing invariant is preserved by one cycle. -/
theorem growCycle_align (p : Params) (c : ℕ) (s : Plant × RNGState)
    (h : List.Forall₂ (LeafSegRel p) s.1.leaves s.1.branches) :
    List.Forall₂ (LeafSegRel p)
      (growCycle p c s).1.leaves (growCycle p c s).1.branches := by
  rw [growCycle_leaves, growCycle_branches]
  by_cases hn : s.1.branch_tips.length = 0
  · simpa [hn] using h
  · simp only [hn, if_false]
    exact List.rel_append h (branchLoop_align p _ _ _)

/-- The leaf-segment pairing invariant is preserved by grow. -/
theorem grow_align (p : Params) (k : ℕ) (s : Plant × RNGState)
    (h : List.Forall₂ (LeafSegRel p) s.1.leaves s.1.branches) :
    List.Forall₂ (LeafSegRel p) (grow p k s).1.leaves (grow p k s).1.branches := by
  induction k with
  | zero => simpa [grow_zero] using h
  | succ k ih => rw [grow_succ]; exact growCycle_align _ _ _ ih

theorem growSeq_cons (p : Params) (k : ℕ) (ks : List ℕ) (s : Plant × RNGState) :
    growSeq p (k :: ks) s = growSeq p ks (grow p k s) := by
  simp [growSeq]

/-- The leaf-segment pairing invariant is preserved by any call sequence. -/
theorem growSeq_align (p : Params) (ks : List ℕ) (s : Plant × RNGState)
    (h : List.Forall₂ (LeafSegRel p) s.1.leaves s.1.branches) :
    List.Forall₂ (LeafSegRel p)
      (growSeq p ks s).1.leaves (growSeq p ks s).1.branches := by
  induction ks generalizing s with
  | nil => simpa [growSeq] using h
  | cons k ks ih => rw [growSeq_cons]; exact ih _ (grow_align _ _ _ h)

/-- With BRANCH_PROB = 0 and nonnegative numpy draws, a singleton branch tip
set stays a singleton across one cycle: the single tip advances and never
bifurcates, and the nonempty next generation replaces the old one. -/
theorem growCycle_tips_len1 (p : Params) (c : ℕ) (s : Plant × RNGState)
    (hBP : p.BRANCH_PROB = 0) (hnp : ∀ i, 0 ≤ s.2.npStream i)
    (h1 : s.1.branch_tips.length = 1) :
    (growCycle p c s).1.branch_tips.length = 1 := by
  have hn0 : ¬ s.1.branch_tips.length = 0 := by omega
  have hnn : ∀ x ∈ s.1.branch_tips.zip ((roDraws s.1 s.2).zip (rbDraws s.1 s.2)),
      (0:ℝ) ≤ x.2.2 := by
    intro x hx
    have h2 := (List.of_mem_zip hx).2
    have h3 := (List.of_mem_zip h2).2
    rw [rbDraws] at h3
    obtain ⟨i, _, hi⟩ := List.mem_map.mp h3
    rw [← hi]
    exact hnp _
  have hlen : (branchData p s.1 s.2).tips.length = 1 := by
    rw [branchData, branchLoop_tips_len_of_BP0 p _ hBP _ hnn]
    simp [roDraws, rbDraws, h1]
  have hne : ¬ (branchData p s.1 s.2).tips.isEmpty = true := by
    intro hemp
    rw [List.isEmpty_iff] at hemp
    rw [hemp] at hlen
    simp at hlen
  rw [growCycle_branch_tips, if_neg hn0, if_neg hne]
  exact hlen

/-- Iterated form: with BRANCH_PROB = 0 and nonnegative numpy draws a
singleton branch tip set stays a singleton across any number of cycles. -/
theorem grow_tips_len1 (p : Params) (k : ℕ) (s : Plant × RNGState)
    (hBP : p.BRANCH_PROB = 0) (hnp : ∀ i, 0 ≤ s.2.npStream i)
    (h1 : s.1.branch_tips.length = 1) :
    (grow p k s).1.branch_tips.length = 1 := by
  induction k with
  | zero => simpa [grow_zero] using h1
  | succ k ih =>
    rw [grow_succ]
    refine growCycle_tips_len1 p (k + 1) (grow p k s) hBP ?_ ih
    rw [grow_npStream]
    exact hnp

/-- One pass of the per-tip loop in the concrete scenario: the single tip at
(50, 0) heading straight up moves to (50, gfval); no clamp fires (the growth
factor is positive) and no bifurcation fires (BRANCH_PROB = 0 and the
bifurcation draw is nonnegative). -/
theorem branchLoop_scen (L : ℝ) (pyS : ℕ → ℝ) (r0 r1 : ℝ) (h : 0 ≤ r1) (j : ℕ) :
    branchLoop (pScen L) pyS [(⟨(50, 0), Real.pi / 2⟩, r0, r1)] j =
      ⟨[((50, 0), (50, gfval))], [⟨(50, gfval), L * gfval⟩],
       [⟨(50, gfval), Real.pi / 2⟩], j⟩ := by
  have hgf : ¬ (gfval < 0) := not_lt.mpr gfval_pos.le
  have hb : ¬ (r1 < (0:ℝ) * gfval) := by
    rw [zero_mul]; exact not_lt.mpr h
  simp only [branchLoop, pScen, tipGrowth_scen]
  rw [if_neg hgf, if_neg hb]

/-- One pass of the root loop in the concrete scenario: the single root tip at
(50, 0) heading straight down moves to (50, -(mval/2)); no clamp exists for
roots, so the endpoint keeps its negative y. -/
theorem rootLoop_scen (L : ℝ) (pyS : ℕ → ℝ) (j : ℕ) :
    rootLoop (pScen L) pyS [⟨(50, 0), -(Real.pi / 2)⟩] j =
      ⟨[((50, 0), (50, -(mval / 2)))], [⟨(50, -(mval / 2)), -(Real.pi / 2)⟩], j + 1⟩ := by
  simp only [rootLoop, pScen, moistureAt_scen]
  rw [show -(Real.pi / 2) + (-(0:ℝ) + ((0:ℝ) - -(0:ℝ)) * pyS j) = -(Real.pi / 2) by ring]
  rw [Real.cos_neg, Real.sin_neg, Real.cos_pi_div_two, Real.sin_pi_div_two]
  norm_num
  all_goals ring

/-- The full concrete scenario run: one cycle of grow from a fresh plant at
(50, 0) with the scenario parameters yields exactly one branch segment from
(50, 0) to (50, gfval), one leaf at its endpoint of size L * gfval, one root
segment from (50, 0) to (50, -(mval/2)), and no flowers. -/
theorem scen_run (L : ℝ) (rng : RNGState) (hnp : ∀ i, 0 ≤ rng.npStream i) :
    (grow (pScen L) 1 (initPlant 50 0, rng)).1.branches = [((50, 0), (50, gfval))] ∧
    (grow (pScen L) 1 (initPlant 50 0, rng)).1.leaves = [⟨(50, gfval), L * gfval⟩] ∧
    (grow (pScen L) 1 (initPlant 50 0, rng)).1.roots = [((50, 0), (50, -(mval / 2)))] ∧
    (grow (pScen L) 1 (initPlant 50 0, rng)).1.flowers = [] := by
  have hg1 : grow (pScen L) 1 (initPlant 50 0, rng) =
      growCycle (pScen L) 1 (initPlant 50 0, rng) := by
    rw [show (1:ℕ) = 0 + 1 from rfl, grow_succ, grow_zero]
  have htrip : (initPlant 50 0).branch_tips.zip
      ((roDraws (initPlant 50 0) rng).zip (rbDraws (initPlant 50 0) rng)) =
      [(⟨(50, 0), Real.pi / 2⟩, rng.npStream rng.npIdx,
        rng.npStream (rng.npIdx + 1))] := by
    simp [initPlant, roDraws, rbDraws, List.range_succ]
  have hdata : branchData (pScen L) (initPlant 50 0) rng =
      ⟨[((50, 0), (50, gfval))], [⟨(50, gfval), L * gfval⟩],
       [⟨(50, gfval), Real.pi / 2⟩], rng.pyIdx⟩ := by
    rw [branchData, htrip]
    exact branchLoop_scen L rng.pyStream _ _ (hnp _) rng.pyIdx
  have hn : ¬ (initPlant 50 0).branch_tips.length = 0 := by simp [initPlant]
  rw [hg1]
  refine ⟨?_, ?_, ?_, ?_⟩
  · rw [growCycle_branches, if_neg hn, hdata]
    simp [initPlant]
  · rw [growCycle_leaves, if_neg hn, hdata]
    simp [initPlant]
  · rw [growCycle_roots, if_neg hn]
    have : (initPlant 50 0).root_tips = [⟨(50, 0), -(Real.pi / 2)⟩] := by
      simp [initPlant]
    rw [this, rootLoop_scen]
    simp [initPlant]
  · rw [growCycle_flowers, if_neg hn]
    rw [if_neg (by simp [pScen])]
    simp [initPlant]

/-- Claim C1, counterexample part: the claim asserts the growth factor may be
negative, but it never is: sunlight is at least 0, moisture is positive, and
the temperature factor is at least 0.7 because temperature stays in [10, 30],
so no choice of parameters, position, angle or draw makes the growth factor
negative. -/
theorem C1_counterexample :
    ¬ ∃ (BL BAR W H : ℝ) (t : Tip) (roi : ℝ), (tipGrowth BL BAR W H t roi).gf < 0 := by
  rintro ⟨BL, BAR, W, H, t, roi, hneg⟩
  exact absurd hneg (not_lt.mpr (tipGrowth_gf_nonneg BL BAR W H t roi))

/-- Claim C1 (amended): for every tip index i of a branch_growth batch, the
returned growth factor equals sunlight(y_i) * moisture(x_i, y_i) *
(1 - |temperature(x_i) - 25| / 50) evaluated at the pre-update position
(x_i, y_i), and this value is always nonnegative (no clamp is applied, but
negativity is impossible given the field ranges). -/
theorem C1_growth_factor (x_arr y_arr angle_arr rand_off rand_br : List ℝ)
    (BL BAR W H : ℝ) (i : ℕ)
    (h : i < (branch_growth x_arr y_arr angle_arr rand_off rand_br BL BAR W H).length) :
    ((branch_growth x_arr y_arr angle_arr rand_off rand_br BL BAR W H).getD i default).gf =
      sunlightAt (y_arr.getD i 0) H * moistureAt (x_arr.getD i 0) (y_arr.getD i 0) W H *
        (1 - |temperatureAt (x_arr.getD i 0) W - 25| / 50) ∧
    0 ≤ ((branch_growth x_arr y_arr angle_arr rand_off rand_br BL BAR W H).getD i default).gf := by
  have hlen := h
  rw [branch_growth] at hlen
  simp only [List.length_map, List.length_zip, lt_min_iff] at hlen
  obtain ⟨⟨hx, hy⟩, ha, hr⟩ := hlen
  have key : (branch_growth x_arr y_arr angle_arr rand_off rand_br BL BAR W H).getD i default =
      tipGrowth BL BAR W H ⟨(x_arr.getD i 0, y_arr.getD i 0), angle_arr.getD i 0⟩
        (rand_off.getD i 0) := by
    rw [List.getD_eq_getElem _ _ h]
    simp only [branch_growth, List.getElem_map, List.getElem_zip]
    rw [List.getD_eq_getElem _ _ hx, List.getD_eq_getElem _ _ hy,
        List.getD_eq_getElem _ _ ha, List.getD_eq_getElem _ _ hr]
  rw [key]
  refine ⟨?_, tipGrowth_gf_nonneg _ _ _ _ _ _⟩
  simp only [tipGrowth]

/-- Claim C1 witness: the amended statement applied to a singleton batch. -/
theorem C1_growth_factor_witness :
    ((branch_growth [50] [0] [0] [0] [0] 1 0 100 100).getD 0 default).gf =
      sunlightAt ([(0:ℝ)].getD 0 0) 100 *
        moistureAt ([(50:ℝ)].getD 0 0) ([(0:ℝ)].getD 0 0) 100 100 *
        (1 - |temperatureAt ([(50:ℝ)].getD 0 0) 100 - 25| / 50) ∧
    0 ≤ ((branch_growth [50] [0] [0] [0] [0] 1 0 100 100).getD 0 default).gf :=
  C1_growth_factor [50] [0] [0] [0] [0] 1 0 100 100 0 (by simp [branch_growth])

/-- Claim C2: every branch segment accumulated by grow from a fresh plant has
a nonnegative endpoint y (the ground clamp), while root segments are not
clamped: the concrete scenario run leaves a root segment whose endpoint y is
strictly negative. -/
theorem C2_ground_clamp (p : Params) (k : ℕ) (x0 y0 : ℝ) (rng : RNGState) (j : ℕ) :
    0 ≤ (((grow p k (initPlant x0 y0, rng)).1.branches).getD j ((0, 0), (0, 0))).2.2 ∧
    (((grow (pScen 1.5) 1 (initPlant 50 0, rngHalf)).1.roots).getD 0 ((0, 0), (0, 0))).2.2 < 0 := by
  constructor
  · by_cases hj : j < (grow p k (initPlant x0 y0, rng)).1.branches.length
    · rw [List.getD_eq_getElem _ _ hj]
      exact grow_branches_endY_nonneg p k _ (by simp [initPlant]) _ (List.getElem_mem hj)
    · rw [List.getD_eq_default _ _ (le_of_not_lt hj)]
  · rw [(scen_run 1.5 rngHalf (fun i => by norm_num [rngHalf])).2.2.1]
    have := mval_pos
    simp
    linarith

/-- Claim C3: a branch tip contributes exactly 2 next-generation tips when its
bifurcation draw rbi (the same rand_br value handed to the growth rule batch)
is below BRANCH_PROB times its growth factor, and exactly 1 otherwise; the
bifurcated child's angle perturbs the tip's pre-update angle using the fresh
python draw consumed at that point. -/
theorem C3_bifurcation (p : Params) (pyS : ℕ → ℝ) (t : Tip) (roi rbi : ℝ)
    (rest : List (Tip × ℝ × ℝ)) (j : ℕ) :
    if rbi < p.BRANCH_PROB *
        (tipGrowth p.BASE_BRANCH_LEN p.BRANCH_ANGLE_RANGE p.WIDTH p.HEIGHT t roi).gf then
      (branchLoop p pyS ((t, roi, rbi) :: rest) j).tips.length =
          2 + (branchLoop p pyS rest (j + 1)).tips.length ∧
      ((branchLoop p pyS ((t, roi, rbi) :: rest) j).tips.getD 1 default).angle =
          t.angle + (pyS j * 2 - 1) * p.BRANCH_ANGLE_RANGE
    else
      (branchLoop p pyS ((t, roi, rbi) :: rest) j).tips.length =
          1 + (branchLoop p pyS rest j).tips.length := by
  by_cases hb : rbi < p.BRANCH_PROB *
      (tipGrowth p.BASE_BRANCH_LEN p.BRANCH_ANGLE_RANGE p.WIDTH p.HEIGHT t roi).gf
  · rw [if_pos hb]
    constructor
    · simp only [branchLoop]
      rw [if_pos hb]
      simp only [List.length_cons]
      omega
    · simp only [branchLoop]
      rw [if_pos hb]
      simp only [List.getD_cons_succ, List.getD_cons_zero]
  · rw [if_neg hb]
    simp only [branchLoop]
    rw [if_neg hb]
    simp only [List.length_cons]
    omega

/-- Claim C4: during one cycle the number of appended flowers equals the size
of that cycle's newly produced next-generation branch tip set when the cycle
index has reached FLOWER_CYCLE_START and is zero otherwise; each flower sits
at its tip's position, has size FLOWER_BASE_SIZE, and carries a color from
the (non-empty) FLOWER_COLORS palette. -/
theorem C4_flower_creation (p : Params) (c : ℕ) (st : Plant) (rng : RNGState)
    (hc : p.FLOWER_COLORS ≠ []) :
    ∃ fls : List Flower,
      (growCycle p c (st, rng)).1.flowers = st.flowers ++ fls ∧
      fls.length =
        (if p.FLOWER_CYCLE_START ≤ c then (newBranchTips p st rng).length else 0) ∧
      List.Forall₂ (fun (f : Flower) (t : Tip) =>
          f.pos = t.pos ∧ f.size = p.FLOWER_BASE_SIZE ∧ f.color ∈ p.FLOWER_COLORS)
        fls (if p.FLOWER_CYCLE_START ≤ c then newBranchTips p st rng else []) := by
  refine ⟨(if st.branch_tips.length = 0 then []
     else if p.FLOWER_CYCLE_START ≤ c then
       (flowerLoop p rng.chStream (branchData p st rng).tips rng.chIdx).fls else []),
     growCycle_flowers p c (st, rng), ?_, ?_⟩
  · by_cases hn : st.branch_tips.length = 0
    · simp [hn, newBranchTips]
    · by_cases hfc : p.FLOWER_CYCLE_START ≤ c
      · simp [hn, hfc, newBranchTips, flowerLoop_length]
      · simp [hn, hfc]
  · by_cases hn : st.branch_tips.length = 0
    · by_cases hfc : p.FLOWER_CYCLE_START ≤ c <;> simp [hn, hfc, newBranchTips]
    · by_cases hfc : p.FLOWER_CYCLE_START ≤ c
      · simp only [hn, hfc, if_true, if_false, if_neg, newBranchTips]
        simpa [hn] using flowerLoop_spec p rng.chStream hc (branchData p st rng).tips rng.chIdx
      · simp [hn, hfc]

/-- Claim C4 witness: the flower rule applied at a cycle index at the
flowering threshold on a fresh plant with the scenario parameters. -/
theorem C4_flower_creation_witness :
    ∃ fls : List Flower,
      (growCycle (pScen 1) 40 (initPlant 50 0, rngHalf)).1.flowers =
        (initPlant 50 0).flowers ++ fls ∧
      fls.length =
        (if (pScen 1).FLOWER_CYCLE_START ≤ 40 then
          (newBranchTips (pScen 1) (initPlant 50 0) rngHalf).length else 0) ∧
      List.Forall₂ (fun (f : Flower) (t : Tip) =>
          f.pos = t.pos ∧ f.size = (pScen 1).FLOWER_BASE_SIZE ∧
            f.color ∈ (pScen 1).FLOWER_COLORS)
        fls (if (pScen 1).FLOWER_CYCLE_START ≤ 40 then
          newBranchTips (pScen 1) (initPlant 50 0) rngHalf else []) :=
  C4_flower_creation (pScen 1) 40 (initPlant 50 0) rngHalf (by simp [pScen])

/-- Claim C5: the stall policy: an empty branch (or root) tip set is retained
unchanged by a cycle rather than being replaced by an empty next generation,
and with BRANCH_PROB = 0 (and uniform draws, which are nonnegative) a single
branch tip yields exactly one next-generation tip every cycle, never zero. -/
theorem C5_stall_policy :
    (∀ (p : Params) (c : ℕ) (st : Plant) (rng : RNGState), st.branch_tips = [] →
        (growCycle p c (st, rng)).1.branch_tips = st.branch_tips) ∧
    (∀ (p : Params) (c : ℕ) (st : Plant) (rng : RNGState), st.root_tips = [] →
        (growCycle p c (st, rng)).1.root_tips = st.root_tips) ∧
    (∀ (p : Params) (k : ℕ) (st : Plant) (rng : RNGState),
        p.BRANCH_PROB = 0 → (∀ i, 0 ≤ rng.npStream i) → st.branch_tips.length = 1 →
        (grow p k (st, rng)).1.branch_tips.length = 1) := by
  refine ⟨?_, ?_, ?_⟩
  · intro p c st rng h
    rw [growCycle_branch_tips]
    simp [h]
  · intro p c st rng h
    exact growCycle_root_tips_of_empty p c (st, rng) h
  · intro p k st rng hBP hnp h1
    exact grow_tips_len1 p k (st, rng) hBP hnp h1

/-- Claim C5 witness: the stall policy exercised on an empty plant and the
single-tip BRANCH_PROB = 0 scenario. -/
theorem C5_stall_policy_witness :
    (growCycle (pScen 1) 1 (emptyPlant, rngHalf)).1.branch_tips = emptyPlant.branch_tips ∧
    (growCycle (pScen 1) 1 (emptyPlant, rngHalf)).1.root_tips = emptyPlant.root_tips ∧
    (grow (pScen 1) 1 (initPlant 50 0, rngHalf)).1.branch_tips.length = 1 :=
  ⟨C5_stall_policy.1 (pScen 1) 1 emptyPlant rngHalf rfl,
   C5_stall_policy.2.1 (pScen 1) 1 emptyPlant rngHalf rfl,
   C5_stall_policy.2.2 (pScen 1) 1 (initPlant 50 0) rngHalf (by simp [pScen])
     (fun i => by norm_num [rngHalf]) (by simp [initPlant])⟩

/-- Claim C6: the four geometry collections are strictly append-only: running
grow(k2) after grow(k1) leaves everything grow(k1) produced in place as a
prefix, with new elements only appended after it. -/
theorem C6_append_only (p : Params) (k1 k2 : ℕ) (s : Plant × RNGState) :
    ∃ db dl df dr,
      (grow p k2 (grow p k1 s)).1.branches = (grow p k1 s).1.branches ++ db ∧
      (grow p k2 (grow p k1 s)).1.leaves = (grow p k1 s).1.leaves ++ dl ∧
      (grow p k2 (grow p k1 s)).1.flowers = (grow p k1 s).1.flowers ++ df ∧
      (grow p k2 (grow p k1 s)).1.roots = (grow p k1 s).1.roots ++ dr :=
  grow_appends p k2 (grow p k1 s)

/-- Claim C7, counterexample part: with a negative LEAF_BASE_SIZE (a parameter
record the claim's universal quantification allows) the very first leaf of the
concrete scenario run has strictly negative size. -/
theorem C7_counterexample :
    ((grow (pScen (-1.5)) 1 (initPlant 50 0, rngHalf)).1.leaves.getD 0 ⟨(0, 0), 0⟩).size < 0 := by
  rw [(scen_run (-1.5) rngHalf (fun i => by norm_num [rngHalf])).2.1]
  simp only [List.getD_cons_zero]
  nlinarith [gfval_pos]

/-- Claim C7 (amended): every leaf accumulated by grow from a fresh plant has
nonnegative size, provided LEAF_BASE_SIZE is nonnegative (the growth factor
multiplying it is always nonnegative). -/
theorem C7_leaf_size_nonneg (p : Params) (k : ℕ) (x0 y0 : ℝ) (rng : RNGState)
    (hL : 0 ≤ p.LEAF_BASE_SIZE) (j : ℕ) :
    0 ≤ ((grow p k (initPlant x0 y0, rng)).1.leaves.getD j ⟨(0, 0), 0⟩).size := by
  by_cases hj : j < (grow p k (initPlant x0 y0, rng)).1.leaves.length
  · rw [List.getD_eq_getElem _ _ hj]
    exact grow_leaves_size_nonneg p k _ hL (by simp [initPlant]) _ (List.getElem_mem hj)
  · rw [List.getD_eq_default _ _ (le_of_not_lt hj)]

/-- Claim C7 witness: the amended statement at the default LEAF_BASE_SIZE. -/
theorem C7_leaf_size_nonneg_witness :
    0 ≤ ((grow (pScen 1.5) 1 (initPlant 50 0, rngHalf)).1.leaves.getD 0 ⟨(0, 0), 0⟩).size :=
  C7_leaf_size_nonneg (pScen 1.5) 1 50 0 rngHalf (by norm_num [pScen]) 0

/-- Claim C8: moisture_field maps an index-aligned coordinate batch of any
length to a same-length, index-aligned batch of Gaussian values
0.5 + 0.5 * exp(-((x - W/2)^2 + (y - H/2)^2) / (2 * (W/4)^2)), each lying in
(0.5, 1] whenever WIDTH is nonzero, for all positions. -/
theorem C8_moisture_field_batch (x_arr y_arr : List ℝ) (W H : ℝ)
    (hlen : y_arr.length = x_arr.length) :
    (moisture_field x_arr y_arr W H).length = x_arr.length ∧
    (∀ i, i < x_arr.length →
      (moisture_field x_arr y_arr W H).getD i 0 =
        0.5 + 0.5 * Real.exp (-((x_arr.getD i 0 - W / 2) ^ 2 +
          (y_arr.getD i 0 - H / 2) ^ 2) / (2 * (W / 4) ^ 2))) ∧
    (W ≠ 0 → ∀ i, i < x_arr.length →
      1 / 2 < (moisture_field x_arr y_arr W H).getD i 0 ∧
      (moisture_field x_arr y_arr W H).getD i 0 ≤ 1) := by
  have hml : (moisture_field x_arr y_arr W H).length = x_arr.length := by
    simp [moisture_field, hlen]
  have key : ∀ i, i < x_arr.length →
      (moisture_field x_arr y_arr W H).getD i 0 =
        moistureAt (x_arr.getD i 0) (y_arr.getD i 0) W H := by
    intro i hi
    have hi2 : i < (moisture_field x_arr y_arr W H).length := by rw [hml]; exact hi
    have hiy : i < y_arr.length := by rw [hlen]; exact hi
    rw [List.getD_eq_getElem _ _ hi2]
    simp only [moisture_field, List.getElem_zipWith]
    rw [List.getD_eq_getElem _ _ hi, List.getD_eq_getElem _ _ hiy]
  refine ⟨hml, ?_, ?_⟩
  · intro i hi
    rw [key i hi]
    simp only [moistureAt]
    rw [show (-((x_arr.getD i 0 - W / 2) * (x_arr.getD i 0 - W / 2) +
        (y_arr.getD i 0 - H / 2) * (y_arr.getD i 0 - H / 2)) / (2 * (W / 4) * (W / 4))) =
      (-((x_arr.getD i 0 - W / 2) ^ 2 + (y_arr.getD i 0 - H / 2) ^ 2) /
        (2 * (W / 4) ^ 2)) from by ring]
  · intro hW i hi
    rw [key i hi]
    exact ⟨moistureAt_gt_half _ _ _ _, moistureAt_le_one _ _ _ _ hW⟩

/-- Claim C8 witness: the range conclusion at the singleton batch (50, 0) in
the 100 x 100 domain. -/
theorem C8_moisture_field_batch_witness :
    1 / 2 < (moisture_field [50] [0] 100 100).getD 0 0 ∧
    (moisture_field [50] [0] 100 100).getD 0 0 ≤ 1 :=
  (C8_moisture_field_batch [50] [0] 100 100 rfl).2.2 (by norm_num) 0 (by norm_num)

/-- Claim C9: the concrete scenario (WIDTH=HEIGHT=100, BASE_BRANCH_LEN=1,
BRANCH_ANGLE_RANGE=0, BRANCH_PROB=0, tip at (50, 0) heading pi/2, one cycle)
produces exactly one branch segment, from (50, 0) straight up to (50, l) with
l = BASE_BRANCH_LEN * sunlight(0) * moisture(50,0) * (1 - |temp(50) - 25|/50),
whose exact value is 9/40 * (1 + exp(-2)). -/
theorem C9_concrete_scenario (rng : RNGState) (hnp : ∀ i, 0 ≤ rng.npStream i) :
    (grow (pScen 1.5) 1 (initPlant 50 0, rng)).1.branches =
      [((50, 0), (50, (pScen 1.5).BASE_BRANCH_LEN *
        (sunlightAt 0 100 * moistureAt 50 0 100 100 *
          (1 - |temperatureAt 50 100 - 25| / 50))))] ∧
    (pScen 1.5).BASE_BRANCH_LEN *
        (sunlightAt 0 100 * moistureAt 50 0 100 100 *
          (1 - |temperatureAt 50 100 - 25| / 50)) = 9 / 40 * (1 + Real.exp (-2)) := by
  have hv : (pScen 1.5).BASE_BRANCH_LEN *
      (sunlightAt 0 100 * moistureAt 50 0 100 100 *
        (1 - |temperatureAt 50 100 - 25| / 50)) = gfval := by
    simp only [pScen]
    rw [sunlightAt_scen, temperatureAt_scen, moistureAt_scen]
    rw [abs_of_nonpos (by norm_num : (20:ℝ) - 25 ≤ 0)]
    simp only [mval, gfval]
    ring
  refine ⟨?_, by rw [hv]; rfl⟩
  rw [hv]
  exact (scen_run 1.5 rng hnp).1

/-- Claim C9 witness: the scenario run with the all-halves random source. -/
theorem C9_concrete_scenario_witness :
    (grow (pScen 1.5) 1 (initPlant 50 0, rngHalf)).1.branches =
      [((50, 0), (50, (pScen 1.5).BASE_BRANCH_LEN *
        (sunlightAt 0 100 * moistureAt 50 0 100 100 *
          (1 - |temperatureAt 50 100 - 25| / 50))))] ∧
    (pScen 1.5).BASE_BRANCH_LEN *
        (sunlightAt 0 100 * moistureAt 50 0 100 100 *
          (1 - |temperatureAt 50 100 - 25| / 50)) = 9 / 40 * (1 + Real.exp (-2)) :=
  C9_concrete_scenario rngHalf (fun i => by norm_num [rngHalf])

/-- Claim C10: after any sequence of grow calls on a fresh plant, the leaves
and branches collections have the same length and are index-aligned: the j-th
leaf sits at the j-th branch segment's (clamped) endpoint and its size is
LEAF_BASE_SIZE times the growth factor of the tip that produced that
segment. -/
theorem C10_leaf_branch_pairing (p : Params) (ks : List ℕ) (x0 y0 : ℝ) (rng : RNGState) :
    (growSeq p ks (initPlant x0 y0, rng)).1.leaves.length =
      (growSeq p ks (initPlant x0 y0, rng)).1.branches.length ∧
    List.Forall₂ (LeafSegRel p)
      (growSeq p ks (initPlant x0 y0, rng)).1.leaves
      (growSeq p ks (initPlant x0 y0, rng)).1.branches := by
  have h := growSeq_align p ks (initPlant x0 y0, rng)
    (by simp only [initPlant]; exact List.Forall₂.nil)
  exact ⟨h.length_eq, h⟩

end PlantSim
